import Mathlib

/-!
Verification development for the robust recursive directory deletion subsystem of
`build_third_party_libs.py`: the `safe_remove_tree` routine (working-directory guard,
version-control pre-clean, trash relocation, bounded retry deletion loop with a
permission-repair hook, POSIX shell fallback) and the recursive `cleanup_build_files`
walker over build-result records.

The filesystem and the outcomes of the fallible OS primitives are abstracted by an
environment record `Env`: each field answers exactly one question the Python code asks
the operating system (does the path exist here, does this call raise, ...).  The
embedded `safe_remove_tree` returns the value or exception of the Python call together
with the ordered trace of observable side effects (rename, move, rmtree, sleep, chdir,
shell removal), so that claims about which operations run, in which order and with which
arguments can be stated and settled.
-/

/- ===================== Python-like values for cleanup_build_files ===================== -/

/-- Shallow embedding of the Python values that `cleanup_build_files` consumes:
`None`, strings (paths) and dictionaries with string keys in insertion order. -/
inductive PyVal where
  | pyNone : PyVal
  | pyStr : String → PyVal
  | pyDict : List (String × PyVal) → PyVal

/-- Embedding of `d.get(key)` on a Python dict: the first binding of `key`,
or `None` when the key is absent. -/
def dictGet : List (String × PyVal) → String → PyVal
  | [], _ => PyVal.pyNone
  | (k, v) :: rest, key => if k = key then v else dictGet rest key

/-- Python truthiness of the modelled values: `None` is falsy, a string is truthy
iff nonempty, a dict is truthy iff nonempty. -/
def truthy : PyVal → Bool
  | PyVal.pyNone => false
  | PyVal.pyStr s => !(s == "")
  | PyVal.pyDict es => !es.isEmpty

mutual

/-- Embedding of `cleanup_build_files(resultData)` from the source.  The returned list
collects, in call order, every value passed to `safe_remove_tree`; `Except.error`
models an uncaught Python exception (calling `.get` on a non-dict, or iterating
`.items()` of a truthy non-dict `subLibs`). -/
def cleanup_build_files : PyVal → Except String (List PyVal)
  | PyVal.pyNone => Except.ok []
  | PyVal.pyStr _ => Except.error "AttributeError"
  | PyVal.pyDict es =>
      let buildDir := dictGet es "buildDir"
      let dels := if truthy buildDir then [buildDir] else []
      match cleanupSubLibs es with
      | Except.ok rest => Except.ok (dels ++ rest)
      | Except.error e => Except.error e

/-- The `subLibs = resultData.get("subLibs"); if subLibs: for ... in subLibs.items()`
part of `cleanup_build_files`, walking the binding list structurally so that the
recursion into the found value is visibly decreasing.  Behaves exactly like looking
the key up with `dictGet` first (proved below as cleanupSubLibs_eq lemmas). -/
def cleanupSubLibs : List (String × PyVal) → Except String (List PyVal)
  | [] => Except.ok []
  | (k, v) :: rest =>
      if k = "subLibs" then
        if truthy v then cleanupTruthySubs v else Except.ok []
      else cleanupSubLibs rest

/-- Iterating `.items()` of a truthy `subLibs` value: a dict yields its children,
anything else raises. -/
def cleanupTruthySubs : PyVal → Except String (List PyVal)
  | PyVal.pyDict subs => cleanupItems subs
  | PyVal.pyNone => Except.error "AttributeError"
  | PyVal.pyStr _ => Except.error "AttributeError"

/-- The `for name, info in subLibs.items(): cleanup_build_files(info)` loop. -/
def cleanupItems : List (String × PyVal) → Except String (List PyVal)
  | [] => Except.ok []
  | (_, info) :: rest =>
      match cleanup_build_files info with
      | Except.ok a =>
          match cleanupItems rest with
          | Except.ok b => Except.ok (a ++ b)
          | Except.error e => Except.error e
      | Except.error e => Except.error e

end

mutual

/-- Modelled from the spec wording of CleanupOrchestrator, for the refinement in C9:
if `result.buildDir` is set, its path is deleted, then the walker recurses into every
entry of `result.subLibs`, at every nesting depth. -/
def specDeletedPaths : PyVal → List PyVal
  | PyVal.pyNone => []
  | PyVal.pyStr _ => []
  | PyVal.pyDict es =>
      (if truthy (dictGet es "buildDir") then [dictGet es "buildDir"] else []) ++
        specSubs es

/-- Spec-side walker for the `subLibs` binding of a node. -/
def specSubs : List (String × PyVal) → List PyVal
  | [] => []
  | (k, v) :: rest =>
      if k = "subLibs" then specSubsVal v else specSubs rest

/-- Spec-side recursion into a `subLibs` value: only a dict has children. -/
def specSubsVal : PyVal → List PyVal
  | PyVal.pyDict subs => specItems subs
  | PyVal.pyNone => []
  | PyVal.pyStr _ => []

/-- Spec-side recursion into every child of a node. -/
def specItems : List (String × PyVal) → List PyVal
  | [] => []
  | pr :: rest => specDeletedPaths pr.2 ++ specItems rest

end

/-- Well-formed build-result trees: `None`, or a dict whose `subLibs` binding is
either falsy or a dict of well-formed children. -/
inductive WFTree : PyVal → Prop where
  | isNone : WFTree PyVal.pyNone
  | noSubs : ∀ es, truthy (dictGet es "subLibs") = false → WFTree (PyVal.pyDict es)
  | withSubs : ∀ es subs, dictGet es "subLibs" = PyVal.pyDict subs →
      (∀ pr, pr ∈ subs → WFTree pr.2) → WFTree (PyVal.pyDict es)

/- ===================== Environment and events for safe_remove_tree ===================== -/

/-- Observable side effects of one `safe_remove_tree` call, in program order:
`chdir` from the working-directory guard, `rmtree` for every `shutil.rmtree` call
(the `.git` pre-clean and the per-attempt whole-tree removals), `rename` for
`os.rename`, `move` for `shutil.move`, `sleep` for the backoff waits, and
`shellRm` for the `rm -rf` fallback subprocess. -/
inductive Event where
  | chdir : String → Event
  | rmtree : String → Event
  | rename : String → String → Event
  | move : String → String → Event
  | sleep : ℚ → Event
  | shellRm : String → Event
deriving DecidableEq

/-- Exceptions that can escape the embedded `safe_remove_tree`. -/
inductive PyErr where
  | cwdError : PyErr
  | runtimeError : String → PyErr
deriving DecidableEq

/-- Environment of one `safe_remove_tree` execution: each field answers one question
the Python code asks the operating system.  The per-attempt fields are indexed by the
1-based attempt number of the retry loop. -/
structure Env where
  /-- `os.name == "posix"`. -/
  posix : Bool
  /-- `tempfile.gettempdir()`. -/
  tmpdir : String
  /-- the random `"build-trash-" + uuid4().hex` component of the trash path. -/
  trashName : String
  /-- the initial `Path(path).exists()` check. -/
  pExists : Bool
  /-- `Path.cwd().resolve()` raises (this call sits outside the guard try block). -/
  cwdRaises : Bool
  /-- resolving or comparing paths inside the guard try block raises. -/
  guardRaises : Bool
  /-- the resolved cwd equals or lies under the resolved target. -/
  cwdInside : Bool
  /-- `(p / ".git").exists()`. -/
  gitExists : Bool
  /-- `os.rename(p, trash_path)` raises. -/
  renameRaises : Bool
  /-- `shutil.move(str(p), str(trash_path))` raises. -/
  moveRaises : Bool
  /-- `target.exists()` at the top of attempt n. -/
  rmExistsPre : Nat → Bool
  /-- `shutil.rmtree(str(target), onerror=...)` raises during attempt n. -/
  rmRaises : Nat → Bool
  /-- `target.exists()` after the rmtree of attempt n. -/
  rmExistsPost : Nat → Bool
  /-- `target.exists()` when the fallback guard is evaluated. -/
  fbExists : Bool
  /-- `subprocess.run(["rm", "-rf", ...], check=True)` raises (nonzero exit or other). -/
  fbRaises : Bool
  /-- `target.exists()` after the fallback subprocess completed with exit 0. -/
  fbExistsPost : Bool

/-- The `trash_parent / trash_name` destination under the system temp directory. -/
def trashPath (env : Env) : String := env.tmpdir ++ "/" ++ env.trashName

/-- Embedding of `_ensure_not_cwd`: `Path.cwd().resolve()` sits outside the try
block, so its failure propagates; failures resolving or comparing the target path
(and of `os.chdir`) are swallowed by the `except: pass`. -/
def ensure_not_cwd (env : Env) : Except PyErr (List Event) :=
  if env.cwdRaises then Except.error PyErr.cwdError
  else if env.guardRaises then Except.ok []
  else if env.cwdInside then Except.ok [Event.chdir env.tmpdir]
  else Except.ok []

/-- Events of the `.git` pre-clean performed on the original path before relocation
(a raising `shutil.rmtree` here is swallowed, so the outcome is not observable,
only the call itself). -/
def gitPrecleanEvents (env : Env) (path : String) : List Event :=
  if env.gitExists then [Event.rmtree (path ++ "/.git")] else []

/-- Whether the relocating rename-then-move left the tree at the trash path:
`moved` in the source. -/
def relocMoved (env : Env) : Bool := !env.renameRaises || !env.moveRaises

/-- Events of the relocation block: `os.rename` is always attempted,
`shutil.move` only when the rename raised; failures of both are swallowed. -/
def relocEvents (env : Env) (path : String) : List Event :=
  if env.renameRaises then
    [Event.rename path (trashPath env), Event.move path (trashPath env)]
  else [Event.rename path (trashPath env)]

/-- `target = trash_path if moved else p`: the path the deletion phase operates on. -/
def delTarget (env : Env) (path : String) : String :=
  if relocMoved env then trashPath env else path

/-- Embedding of the bounded retry loop
`for attempt in range(1, retries + 1): ...`.  `attempt` is the 1-based number of the
current attempt and `remaining` the number of attempts left.  Returns `some true`
when the loop returned (the target was observed gone), `none` when it fell through,
together with its event trace.  A raising rmtree consumes the attempt and sleeps
`delay * attempt`; a completed rmtree that leaves the target in place retries at
once without sleeping. -/
def rmLoop (env : Env) (target : String) (delay : ℚ) :
    Nat → Nat → Option Bool × List Event
  | _, 0 => (Option.none, [])
  | attempt, r + 1 =>
    if env.rmExistsPre attempt then
      if env.rmRaises attempt then
        let rest := rmLoop env target delay (attempt + 1) r
        (rest.1, Event.rmtree target :: Event.sleep (delay * (attempt : ℚ)) :: rest.2)
      else if env.rmExistsPost attempt = false then
        (some true, [Event.rmtree target])
      else
        let rest := rmLoop env target delay (attempt + 1) r
        (rest.1, Event.rmtree target :: rest.2)
    else
      if env.rmExistsPost attempt = false then (some true, [])
      else
        let rest := rmLoop env target delay (attempt + 1) r
        (rest.1, rest.2)

/-- The `if ignore_errors: return False else: raise RuntimeError(...)` tail. -/
def giveUpResult (path : String) (ignore_errors : Bool) : Except PyErr Bool :=
  if ignore_errors then Except.ok false
  else Except.error (PyErr.runtimeError ("Could not delete build path: " ++ path))

/-- Embedding of `safe_remove_tree(path, retries, delay, ignore_errors)` from the
source: existence check, working-directory guard, `.git` pre-clean, relocation to
the trash path, bounded retry deletion loop, POSIX `rm -rf` fallback, give-up tail.
Returns the Python return value or exception together with the event trace. -/
def safe_remove_tree (env : Env) (path : String) (retries : Nat) (delay : ℚ)
    (ignore_errors : Bool) : Except PyErr Bool × List Event :=
  if env.pExists = false then (Except.ok true, [])
  else
    match ensure_not_cwd env with
    | Except.error e => (Except.error e, [])
    | Except.ok guardEvs =>
      let target := delTarget env path
      let pre := guardEvs ++ gitPrecleanEvents env path ++ relocEvents env path
      let lr := rmLoop env target delay 1 retries
      match lr.1 with
      | some b => (Except.ok b, pre ++ lr.2)
      | Option.none =>
        if env.posix && env.fbExists then
          if env.fbRaises then
            (giveUpResult path ignore_errors, pre ++ lr.2 ++ [Event.shellRm target])
          else
            (Except.ok (!env.fbExistsPost), pre ++ lr.2 ++ [Event.shellRm target])
        else (giveUpResult path ignore_errors, pre ++ lr.2)

/- ===================== Per-entry repair hook model (for C8) ===================== -/

/-- One filesystem entry inside the tree being removed, as the repair hook sees it. -/
structure FsEntry where
  /-- the read-only attribute is set, making direct removal fail. -/
  readOnly : Bool
  /-- `os.chmod(path, stat.S_IWRITE)` on this entry raises. -/
  chmodRaises : Bool
  /-- removing this entry fails even when it is writable (held open, locked, ...). -/
  blockedWhenWritable : Bool

/-- Direct removal of an entry fails iff it is read-only or otherwise blocked. -/
def directRemoveFails (e : FsEntry) : Bool := e.readOnly || e.blockedWhenWritable

/-- Outcome of the `_on_rm_error` hook on one entry. -/
inductive HookResult where
  | removed : HookResult
  | raised : HookResult
deriving DecidableEq

/-- Embedding of `_on_rm_error`: best-effort `os.chmod(path, stat.S_IWRITE)` (its
failure is swallowed, leaving the read-only bit as it was), then the failing removal
`func(path)` is retried once; if that single retry fails too, the exception is
re-raised out of the attempt. -/
def on_rm_error (e : FsEntry) : HookResult :=
  let roAfter := if e.chmodRaises then e.readOnly else false
  if roAfter || e.blockedWhenWritable then HookResult.raised else HookResult.removed

/-- One `shutil.rmtree(..., onerror=_on_rm_error)` attempt over the entries of the
tree: entries whose direct removal succeeds are removed, the hook is invoked for each
failing entry, and the attempt completes (returns `true`) iff no hook invocation
re-raised. -/
def rmtreeAttempt : List FsEntry → Bool
  | [] => true
  | e :: rest =>
      if directRemoveFails e then
        match on_rm_error e with
        | HookResult.removed => rmtreeAttempt rest
        | HookResult.raised => false
      else rmtreeAttempt rest

/- ===================== Trace projections ===================== -/

/-- The backoff duration of a sleep event. -/
def sleepAmount : Event → Option ℚ
  | Event.sleep q => some q
  | Event.chdir _ => Option.none
  | Event.rmtree _ => Option.none
  | Event.rename _ _ => Option.none
  | Event.move _ _ => Option.none
  | Event.shellRm _ => Option.none

/-- The list of backoff sleep durations of a trace, in order. -/
def sleepsOf (evs : List Event) : List ℚ := evs.filterMap sleepAmount

/-- Keeps the relocation primitives (`os.rename` / `shutil.move`) of a trace. -/
def moveCall : Event → Option Event
  | Event.rename a b => some (Event.rename a b)
  | Event.move a b => some (Event.move a b)
  | Event.sleep _ => Option.none
  | Event.chdir _ => Option.none
  | Event.rmtree _ => Option.none
  | Event.shellRm _ => Option.none

/-- The relocation calls of a trace, in order. -/
def movesOf (evs : List Event) : List Event := evs.filterMap moveCall

/-- The argument of an rmtree event. -/
def rmtreeArg : Event → Option String
  | Event.rmtree s => some s
  | Event.sleep _ => Option.none
  | Event.chdir _ => Option.none
  | Event.rename _ _ => Option.none
  | Event.move _ _ => Option.none
  | Event.shellRm _ => Option.none

/-- The arguments of all `shutil.rmtree` calls of a trace, in order. -/
def rmtreeArgsOf (evs : List Event) : List String := evs.filterMap rmtreeArg

/-- The events the working-directory guard contributes when `Path.cwd().resolve()`
did not raise. -/
def guardEvents (env : Env) : List Event :=
  if env.guardRaises then [] else if env.cwdInside then [Event.chdir env.tmpdir] else []

/- ===================== Concrete executions ===================== -/

/-- Execution for C1: relocation fails, the single removal attempt raises but leaves
the target gone, and every later existence probe reports the target nonexistent. -/
def envC1 : Env :=
  ⟨true, "/tmp", "build-trash-0", true, false, false, false, false, true, true,
   fun _ => true, fun _ => true, fun _ => false, false, false, false⟩

/-- Execution for C2: every attempt raises, the POSIX fallback subprocess exits with
status zero, yet the target still exists afterwards. -/
def envC2 : Env :=
  ⟨true, "/tmp", "build-trash-0", true, false, false, false, false, true, true,
   fun _ => true, fun _ => true, fun _ => true, true, false, true⟩

/-- Execution for C3: the target exists and determining or resolving the current
working directory raises. -/
def envC3 : Env :=
  ⟨false, "/tmp", "build-trash-0", true, true, false, false, false, false, false,
   fun _ => true, fun _ => false, fun _ => false, false, false, false⟩

/-- Execution for C4, first call: the rename relocates the tree to the trash path,
every removal attempt on it raises and keeps it in place, no POSIX fallback. -/
def envC4a : Env :=
  ⟨false, "/tmp", "build-trash-0", true, false, false, false, false, false, false,
   fun _ => true, fun _ => true, fun _ => true, false, false, false⟩

/-- Execution for C4, second call: the original path no longer exists because the
first call relocated it. -/
def envC4b : Env :=
  ⟨false, "/tmp", "build-trash-0", false, false, false, false, false, false, false,
   fun _ => true, fun _ => true, fun _ => true, false, false, false⟩

/-- Execution for C7: a `.git` directory is present, the rename relocates the tree,
and the first removal attempt succeeds. -/
def envC7 : Env :=
  ⟨false, "/tmp", "build-trash-0", true, false, false, false, true, false, false,
   fun _ => true, fun _ => false, fun _ => false, false, false, false⟩

/-- Witness execution for C1: the final attempt completes and leaves the target gone. -/
def envW1 : Env :=
  ⟨false, "/tmp", "build-trash-0", true, false, false, false, false, true, true,
   fun _ => true, fun _ => false, fun _ => false, false, false, false⟩

/-- Witness execution for C2: every attempt raises on a non-POSIX system and the
target survives. -/
def envW2 : Env :=
  ⟨false, "/tmp", "build-trash-0", true, false, false, false, false, true, true,
   fun _ => true, fun _ => true, fun _ => true, false, false, true⟩

/-- Witness execution for C5: attempts one and two raise, attempt three succeeds. -/
def envW5 : Env :=
  ⟨true, "/tmp", "build-trash-0", true, false, false, false, false, false, false,
   fun _ => true, fun k => k == 1 || k == 2, fun _ => false, false, false, false⟩

/-- Witness execution for C6: the rename raises, the move succeeds, every removal
attempt raises, and the POSIX fallback also raises. -/
def envW6 : Env :=
  ⟨true, "/tmp", "build-trash-0", true, false, false, false, false, true, false,
   fun _ => true, fun _ => true, fun _ => true, true, true, true⟩

/-- Witness entries for C8: a single read-only, otherwise unobstructed file. -/
def entriesW8 : List FsEntry := [⟨true, false, false⟩]

/-- Witness execution for C8: the single attempt does not raise (matching
`rmtreeAttempt entriesW8 = true`) and removes the target. -/
def envW8 : Env :=
  ⟨false, "/tmp", "build-trash-0", true, false, false, false, false, true, true,
   fun _ => true, fun _ => false, fun _ => false, false, false, false⟩

/-- Child x of the example tree from the spec: `{buildDir: "B", subLibs: {}}`. -/
def exampleNodeX : PyVal :=
  PyVal.pyDict [("buildDir", PyVal.pyStr "B"), ("subLibs", PyVal.pyDict [])]

/-- Child y of the example tree from the spec: `{buildDir: None, subLibs: {}}`. -/
def exampleNodeY : PyVal :=
  PyVal.pyDict [("buildDir", PyVal.pyNone), ("subLibs", PyVal.pyDict [])]

/-- The subLibs entries of the example tree from the spec. -/
def exampleSubs : List (String × PyVal) := [("x", exampleNodeX), ("y", exampleNodeY)]

/-- The example build-result tree from the spec:
`{buildDir: "A", subLibs: {x: {buildDir: "B", subLibs: {}}, y: {buildDir: None, subLibs: {}}}}`. -/
def exampleTree : PyVal :=
  PyVal.pyDict [("buildDir", PyVal.pyStr "A"), ("subLibs", PyVal.pyDict exampleSubs)]

/- ===================== Lemmas about cleanup_build_files ===================== -/

/-- cleanupSubLibs on a binding list whose subLibs binding is falsy does nothing,
exactly as looking the key up first would. -/
theorem cleanupSubLibs_falsy (es : List (String × PyVal))
    (h : truthy (dictGet es "subLibs") = false) : cleanupSubLibs es = Except.ok [] := by
  induction es with
  | nil => rw [cleanupSubLibs]
  | cons hd tl ih =>
    obtain ⟨k, v⟩ := hd
    simp only [dictGet] at h
    rw [cleanupSubLibs]
    split_ifs at h ⊢ with hk ht
    · simp [h] at ht
    · rfl
    · exact ih h

/-- cleanupSubLibs on a binding list whose subLibs binding is a dict iterates the
children of that dict, exactly as looking the key up first would. -/
theorem cleanupSubLibs_dict (es : List (String × PyVal)) (subs : List (String × PyVal))
    (h : dictGet es "subLibs" = PyVal.pyDict subs) :
    cleanupSubLibs es = cleanupItems subs := by
  induction es with
  | nil => simp [dictGet] at h
  | cons hd tl ih =>
    obtain ⟨k, v⟩ := hd
    simp only [dictGet] at h
    rw [cleanupSubLibs]
    split_ifs at h ⊢ with hk ht
    · subst h; rw [cleanupTruthySubs]
    · subst h
      simp only [truthy, Bool.not_eq_true, Bool.not_eq_false, List.isEmpty_iff] at ht
      have hnil : subs = [] := by
        rcases subs with _ | ⟨a, l⟩
        · rfl
        · simp at ht
      subst hnil; rw [cleanupItems]
    · exact ih h

/-- The spec-side walker on a binding list whose subLibs binding is a dict. -/
theorem specSubs_dict (es : List (String × PyVal)) (subs : List (String × PyVal))
    (h : dictGet es "subLibs" = PyVal.pyDict subs) : specSubs es = specItems subs := by
  induction es with
  | nil => simp [dictGet] at h
  | cons hd tl ih =>
    obtain ⟨k, v⟩ := hd
    simp only [dictGet] at h
    rw [specSubs]
    split_ifs at h ⊢ with hk
    · subst h; rw [specSubsVal]
    · exact ih h

/-- The spec-side walker on a binding list whose subLibs binding is falsy. -/
theorem specSubs_falsy (es : List (String × PyVal))
    (h : truthy (dictGet es "subLibs") = false) : specSubs es = [] := by
  induction es with
  | nil => rw [specSubs]
  | cons hd tl ih =>
    obtain ⟨k, v⟩ := hd
    simp only [dictGet] at h
    rw [specSubs]
    split_ifs at h ⊢ with hk
    · cases v with
      | pyNone => rw [specSubsVal]
      | pyStr s => rw [specSubsVal]
      | pyDict subs =>
        simp only [truthy, Bool.not_eq_true, Bool.not_eq_false, List.isEmpty_iff] at h
        have hnil : subs = [] := by
          rcases subs with _ | ⟨a, l⟩
          · rfl
          · simp at h
        subst hnil; rw [specSubsVal, specItems]
    · exact ih h

/-- Refinement of the traversal: on every well-formed build-result tree the embedded
walker raises nothing and passes to deletion exactly the paths the spec-side
traversal collects, at every nesting depth. -/
theorem cleanup_wf (v : PyVal) (hv : WFTree v) :
    cleanup_build_files v = Except.ok (specDeletedPaths v) := by
  induction hv with
  | isNone => rw [cleanup_build_files, specDeletedPaths]
  | noSubs es h =>
    rw [cleanup_build_files, specDeletedPaths,
        cleanupSubLibs_falsy es h, specSubs_falsy es h]
  | withSubs es subs hget hmem ih =>
    have hitems : ∀ l : List (String × PyVal),
        (∀ pr ∈ l, cleanup_build_files pr.2 = Except.ok (specDeletedPaths pr.2)) →
        cleanupItems l = Except.ok (specItems l) := by
      intro l
      induction l with
      | nil => intro _; rw [cleanupItems, specItems]
      | cons pr rest ihl =>
        intro hl
        rw [cleanupItems, specItems, hl pr (by simp),
            ihl (fun q hq => hl q (by simp [hq]))]
    rw [cleanup_build_files, specDeletedPaths,
        cleanupSubLibs_dict es subs hget, specSubs_dict es subs hget,
        hitems subs ih]

/- ===================== Lemmas about the retry loop ===================== -/

/-- Every event of the retry loop is an rmtree of the deletion target or a sleep. -/
theorem rmLoop_mem (env : Env) (t : String) (d : ℚ) :
    ∀ (r a : Nat) (e : Event), e ∈ (rmLoop env t d a r).2 →
      e = Event.rmtree t ∨ ∃ q, e = Event.sleep q := by
  intro r
  induction r with
  | zero => intro a e he; simp [rmLoop] at he
  | succ n ih =>
    intro a e he
    rw [rmLoop] at he
    split_ifs at he with h1 h2 h3 h4
    · simp only [List.mem_cons] at he
      rcases he with h | h | h
      · exact Or.inl h
      · exact Or.inr ⟨_, h⟩
      · exact ih (a + 1) e h
    · simp only [List.mem_singleton] at he
      exact Or.inl he
    · simp only [List.mem_cons] at he
      rcases he with h | h
      · exact Or.inl h
      · exact ih (a + 1) e h
    · simp at he
    · exact ih (a + 1) e he

/-- If the final attempt of the loop does not raise and observes the target gone,
the loop returns success. -/
theorem rmLoop_last_success (env : Env) (t : String) (d : ℚ) :
    ∀ (r a : Nat), env.rmRaises (a + r) = false → env.rmExistsPost (a + r) = false →
    (rmLoop env t d a (r + 1)).1 = some true := by
  intro r
  induction r with
  | zero =>
    intro a h1 h2
    simp only [Nat.add_zero] at h1 h2
    simp only [rmLoop]
    by_cases hp : env.rmExistsPre a <;> simp [hp, h1, h2]
  | succ n ih =>
    intro a h1 h2
    have hth : a + (n + 1) = (a + 1) + n := by omega
    rw [hth] at h1 h2
    have hrec := ih (a + 1) h1 h2
    rw [rmLoop]
    by_cases hp : env.rmExistsPre a
    · by_cases hr : env.rmRaises a
      · simp [hp, hr, hrec]
      · by_cases hpost : env.rmExistsPost a = false
        · simp [hp, hr, hpost]
        · simp [hp, hr, hpost, hrec]
    · by_cases hpost : env.rmExistsPost a = false
      · simp [hp, hpost]
      · simp [hp, hpost, hrec]

/-- If some attempt of the loop does not raise and observes the target gone, the
loop returns success at that attempt already. -/
theorem rmLoop_first_success (env : Env) (t : String) (d : ℚ) (a r : Nat)
    (h1 : env.rmRaises a = false) (h2 : env.rmExistsPost a = false) :
    (rmLoop env t d a (r + 1)).1 = some true := by
  simp only [rmLoop]
  by_cases hp : env.rmExistsPre a <;> simp [hp, h1, h2]

/-- If every attempt of the loop finds the target and raises, the loop falls
through without returning. -/
theorem rmLoop_none (env : Env) (t : String) (d : ℚ) :
    ∀ (r a : Nat),
    (∀ k, a ≤ k → k < a + r → env.rmExistsPre k = true ∧ env.rmRaises k = true) →
    (rmLoop env t d a r).1 = Option.none := by
  intro r
  induction r with
  | zero => intro a _; simp [rmLoop]
  | succ n ih =>
    intro a h
    obtain ⟨hp, hr⟩ := h a (Nat.le_refl a) (by omega)
    simp only [rmLoop]
    simp only [hp, hr, if_true]
    exact ih (a + 1) (fun k hk1 hk2 => h k (by omega) (by omega))

/- ===================== Lemmas about the orchestration ===================== -/

/-- When determining the working directory does not raise, the guard returns
normally with its (possibly empty) chdir trace. -/
theorem ensure_not_cwd_ok (env : Env) (h : env.cwdRaises = false) :
    ensure_not_cwd env = Except.ok (guardEvents env) := by
  rw [ensure_not_cwd, guardEvents, if_neg (by simp [h] : ¬env.cwdRaises = true)]
  split_ifs <;> rfl

/-- Unfolding of a run of safe_remove_tree past the existence check and the guard. -/
theorem safe_remove_tree_run (env : Env) (path : String) (retries : Nat) (delay : ℚ)
    (ie : Bool) (hpe : env.pExists = true) (hcwd : env.cwdRaises = false) :
    safe_remove_tree env path retries delay ie =
      (match (rmLoop env (delTarget env path) delay 1 retries).1 with
       | some b =>
         (Except.ok b,
          guardEvents env ++ gitPrecleanEvents env path ++ relocEvents env path ++
            (rmLoop env (delTarget env path) delay 1 retries).2)
       | Option.none =>
         if env.posix && env.fbExists then
           if env.fbRaises then
             (giveUpResult path ie,
              guardEvents env ++ gitPrecleanEvents env path ++ relocEvents env path ++
                (rmLoop env (delTarget env path) delay 1 retries).2 ++
                [Event.shellRm (delTarget env path)])
           else
             (Except.ok (!env.fbExistsPost),
              guardEvents env ++ gitPrecleanEvents env path ++ relocEvents env path ++
                (rmLoop env (delTarget env path) delay 1 retries).2 ++
                [Event.shellRm (delTarget env path)])
         else
           (giveUpResult path ie,
            guardEvents env ++ gitPrecleanEvents env path ++ relocEvents env path ++
              (rmLoop env (delTarget env path) delay 1 retries).2)) := by
  rw [safe_remove_tree, ensure_not_cwd_ok env hcwd]
  simp only [hpe]
  rfl

/-- The trace of a run that got past the guard splits into the guard, pre-clean and
relocation events, the loop events, and an optional final shell fallback call. -/
theorem safe_remove_tree_trace (env : Env) (path : String) (retries : Nat) (delay : ℚ)
    (ie : Bool) (hpe : env.pExists = true) (hcwd : env.cwdRaises = false) :
    ∃ tail,
      (safe_remove_tree env path retries delay ie).2 =
        guardEvents env ++ gitPrecleanEvents env path ++ relocEvents env path ++
          (rmLoop env (delTarget env path) delay 1 retries).2 ++ tail ∧
      (tail = [] ∨ tail = [Event.shellRm (delTarget env path)]) := by
  rw [safe_remove_tree_run env path retries delay ie hpe hcwd]
  rcases hlr : (rmLoop env (delTarget env path) delay 1 retries).1 with _ | b
  · by_cases hfb : (env.posix && env.fbExists) = true
    · by_cases hr : env.fbRaises = true
      · exact ⟨[Event.shellRm (delTarget env path)], by simp [hlr, hfb, hr], Or.inr rfl⟩
      · exact ⟨[Event.shellRm (delTarget env path)],
          by simp [hlr, hfb, hr], Or.inr rfl⟩
    · exact ⟨[], by simp [hlr, hfb], Or.inl rfl⟩
  · exact ⟨[], by simp [hlr], Or.inl rfl⟩

/- ===================== Lemmas about trace projections ===================== -/

/-- The guard contributes no sleeps. -/
theorem sleepsOf_guard (env : Env) : sleepsOf (guardEvents env) = [] := by
  simp only [guardEvents]
  split_ifs <;> simp [sleepsOf, sleepAmount]

/-- The pre-clean contributes no sleeps. -/
theorem sleepsOf_git (env : Env) (path : String) :
    sleepsOf (gitPrecleanEvents env path) = [] := by
  simp only [gitPrecleanEvents]
  split_ifs <;> simp [sleepsOf, sleepAmount]

/-- Relocation contributes no sleeps. -/
theorem sleepsOf_reloc (env : Env) (path : String) :
    sleepsOf (relocEvents env path) = [] := by
  simp only [relocEvents]
  split_ifs <;> simp [sleepsOf, sleepAmount]

/-- The guard contributes no relocation calls. -/
theorem movesOf_guard (env : Env) : movesOf (guardEvents env) = [] := by
  simp only [guardEvents]
  split_ifs <;> simp [movesOf, moveCall]

/-- The pre-clean contributes no relocation calls. -/
theorem movesOf_git (env : Env) (path : String) :
    movesOf (gitPrecleanEvents env path) = [] := by
  simp only [gitPrecleanEvents]
  split_ifs <;> simp [movesOf, moveCall]

/-- The relocation block consists entirely of relocation calls. -/
theorem movesOf_reloc (env : Env) (path : String) :
    movesOf (relocEvents env path) = relocEvents env path := by
  simp only [relocEvents]
  split_ifs <;> simp [movesOf, moveCall]

/-- The retry loop contributes no relocation calls. -/
theorem movesOf_rmLoop (env : Env) (t : String) (d : ℚ) (a r : Nat) :
    movesOf (rmLoop env t d a r).2 = [] := by
  rw [movesOf, List.filterMap_eq_nil_iff]
  intro e he
  rcases rmLoop_mem env t d r a e he with h | ⟨q, h⟩ <;> subst h <;> rfl

/-- The guard contributes no rmtree calls. -/
theorem rmtreeArgsOf_guard (env : Env) : rmtreeArgsOf (guardEvents env) = [] := by
  simp only [guardEvents]
  split_ifs <;> simp [rmtreeArgsOf, rmtreeArg]

/-- Relocation contributes no rmtree calls. -/
theorem rmtreeArgsOf_reloc (env : Env) (path : String) :
    rmtreeArgsOf (relocEvents env path) = [] := by
  simp only [relocEvents]
  split_ifs <;> simp [rmtreeArgsOf, rmtreeArg]

/-- The pre-clean is the rmtree of the `.git` directory under the original path,
exactly when that directory exists. -/
theorem rmtreeArgsOf_git (env : Env) (path : String) :
    rmtreeArgsOf (gitPrecleanEvents env path) =
      if env.gitExists then [path ++ "/.git"] else [] := by
  simp only [gitPrecleanEvents]
  split_ifs <;> simp [rmtreeArgsOf, rmtreeArg]

/-- Every rmtree call of the retry loop targets the deletion target. -/
theorem rmtreeArgsOf_rmLoop (env : Env) (t : String) (d : ℚ) (a r : Nat) :
    ∀ s, s ∈ rmtreeArgsOf (rmLoop env t d a r).2 → s = t := by
  intro s hs
  rw [rmtreeArgsOf] at hs
  obtain ⟨e, he, hfe⟩ := List.mem_filterMap.mp hs
  rcases rmLoop_mem env t d r a e he with h | ⟨q, h⟩ <;> subst h
  · rw [rmtreeArg] at hfe
    exact (Option.some_inj.mp hfe).symm
  · rw [rmtreeArg] at hfe
    exact absurd hfe (Option.noConfusion)

/- ===================== Claims ===================== -/

/-- Claim C1 (amended): on an existing path, if the final removal attempt completes
without raising and leaves the deletion target nonexistent, safe_remove_tree returns
true — for every retries, ignore_errors and platform.  The extra case the original
claim includes (the final attempt raising while the target nevertheless ends up
nonexistent) is refuted by c1_final_raise_counterexample: the code then takes the
give-up path instead of returning true. -/
theorem c1_success_when_final_attempt_completes (env : Env) (path : String)
    (retries : Nat) (delay : ℚ) (ie : Bool)
    (hpe : env.pExists = true) (hcwd : env.cwdRaises = false)
    (hret : 1 ≤ retries)
    (hraise : env.rmRaises retries = false) (hpost : env.rmExistsPost retries = false) :
    (safe_remove_tree env path retries delay ie).1 = Except.ok true := by
  obtain ⟨r, rfl⟩ : ∃ r, retries = r + 1 := ⟨retries - 1, by omega⟩
  have hlr : (rmLoop env (delTarget env path) delay 1 (r + 1)).1 = some true := by
    apply rmLoop_last_success
    · rw [show 1 + r = r + 1 by omega]; exact hraise
    · rw [show 1 + r = r + 1 by omega]; exact hpost
  rw [safe_remove_tree_run env path (r + 1) delay ie hpe hcwd, hlr]

/-- Claim C1, counterexample: a single-retry run whose attempt raises but leaves the
target gone (every later existence probe reports it nonexistent, in particular at the
fallback guard) returns false, not the true the claim demands. -/
theorem c1_final_raise_counterexample :
    envC1.pExists = true ∧ envC1.rmRaises 1 = true ∧ envC1.rmExistsPost 1 = false ∧
      envC1.fbExists = false ∧
      (safe_remove_tree envC1 "build" 1 (1/2) true).1 = Except.ok false :=
  ⟨rfl, rfl, rfl, rfl, rfl⟩

/-- Witness for C1: a concrete run whose final attempt completes and leaves the
target gone returns true. -/
theorem c1_witness :
    (safe_remove_tree envW1 "build" 2 (1/2) true).1 = Except.ok true :=
  c1_success_when_final_attempt_completes envW1 "build" 2 (1/2) true rfl rfl
    (by omega) rfl rfl

/-- Claim C2 (amended): when every in-process attempt finds the target and raises and
the target still exists after the fallback, the call with ignore_errors=true returns
false and raises nothing — including the execution where the POSIX fallback exits
zero with the target still present; with ignore_errors=false it raises a RuntimeError
naming the original path, except in that zero-exit execution, where (as
c2_zero_exit_counterexample shows) the code returns false without raising. -/
theorem c2_exhausted_outcomes (env : Env) (path : String) (retries : Nat) (delay : ℚ)
    (hpe : env.pExists = true) (hcwd : env.cwdRaises = false)
    (hall : ∀ k, 1 ≤ k → k ≤ retries → env.rmExistsPre k = true ∧ env.rmRaises k = true)
    (hpost : env.fbExistsPost = true) :
    (safe_remove_tree env path retries delay true).1 = Except.ok false ∧
    ((env.posix && env.fbExists && !env.fbRaises) = false →
      (safe_remove_tree env path retries delay false).1 =
        Except.error (PyErr.runtimeError ("Could not delete build path: " ++ path))) := by
  have hlr : (rmLoop env (delTarget env path) delay 1 retries).1 = Option.none :=
    rmLoop_none env (delTarget env path) delay retries 1
      (fun k hk1 hk2 => hall k hk1 (by omega))
  constructor
  · rw [safe_remove_tree_run env path retries delay true hpe hcwd, hlr]
    by_cases hfb : (env.posix && env.fbExists) = true
    · by_cases hr : env.fbRaises = true
      · simp [hfb, hr, giveUpResult]
      · simp [hfb, hr, hpost]
    · simp [hfb, giveUpResult]
  · intro hcond
    rw [safe_remove_tree_run env path retries delay false hpe hcwd, hlr]
    by_cases hfb : (env.posix && env.fbExists) = true
    · have hr : env.fbRaises = true := by
        rcases Bool.eq_false_or_eq_true env.fbRaises with h | h
        · exact h
        · rw [hfb, h] at hcond; simp at hcond
      simp [hfb, hr, giveUpResult]
    · simp [hfb, giveUpResult]

/-- Claim C2, counterexample: all in-process attempts raise, the POSIX fallback
subprocess exits with status zero, the target still exists — and the call with
ignore_errors=false returns false instead of raising an error naming the path. -/
theorem c2_zero_exit_counterexample :
    envC2.posix = true ∧ envC2.fbExists = true ∧ envC2.fbRaises = false ∧
      envC2.fbExistsPost = true ∧
      (safe_remove_tree envC2 "build" 1 (1/2) false).1 = Except.ok false :=
  ⟨rfl, rfl, rfl, rfl, rfl⟩

/-- Witness for C2: a concrete exhausted non-POSIX run returns false under
ignore_errors=true and raises the RuntimeError naming the path under
ignore_errors=false. -/
theorem c2_witness :
    (safe_remove_tree envW2 "build" 1 (1/2) true).1 = Except.ok false ∧
    ((envW2.posix && envW2.fbExists && !envW2.fbRaises) = false →
      (safe_remove_tree envW2 "build" 1 (1/2) false).1 =
        Except.error (PyErr.runtimeError ("Could not delete build path: " ++ "build"))) :=
  c2_exhausted_outcomes envW2 "build" 1 (1/2) rfl rfl
    (fun _ _ _ => ⟨rfl, rfl⟩) rfl

/-- Claim C3, failing execution: on an existing target, a failure of
`Path.cwd().resolve()` — which sits outside the guard try block — escapes
safe_remove_tree before any deletion step is attempted (empty trace), contradicting
the claim that every guard failure is swallowed and never aborts the deletion. -/
theorem c3_cwd_failure_aborts :
    envC3.pExists = true ∧ envC3.cwdRaises = true ∧
      (safe_remove_tree envC3 "build" 5 (1/2) true).1 = Except.error PyErr.cwdError ∧
      (safe_remove_tree envC3 "build" 5 (1/2) true).2 = [] :=
  ⟨rfl, rfl, rfl, rfl⟩

/-- Claim C4 (amended): on a nonexistent path safe_remove_tree returns true and
performs no filesystem operation at all (empty trace); hence a second call after a
first call that relocated or removed the original path is a pure no-op returning
true — though, as c4_not_idempotent_counterexample shows, the returned value of the
second call can differ from that of the single first call. -/
theorem c4_nonexistent_noop (env : Env) (path : String) (retries : Nat) (delay : ℚ)
    (ie : Bool) (h : env.pExists = false) :
    safe_remove_tree env path retries delay ie = (Except.ok true, []) := by
  rw [safe_remove_tree, if_pos h]

/-- Claim C4, counterexample: a first call that relocates the tree (the rename
succeeds) and fails to delete it returns false; the second call then sees the
original path gone and returns true — so calling twice does not return the same
value as calling once. -/
theorem c4_not_idempotent_counterexample :
    envC4a.renameRaises = false ∧
      (safe_remove_tree envC4a "build" 1 (1/2) true).1 = Except.ok false ∧
      envC4b.pExists = false ∧
      (safe_remove_tree envC4b "build" 1 (1/2) true).1 = Except.ok true ∧
      (Except.ok false : Except PyErr Bool) ≠ Except.ok true :=
  ⟨rfl, rfl, rfl, rfl, by simp⟩

/-- Witness for C4: the second call of the counterexample pair is a no-op. -/
theorem c4_witness :
    safe_remove_tree envC4b "build" 1 (1/2) true = (Except.ok true, []) :=
  c4_nonexistent_noop envC4b "build" 1 (1/2) true rfl

/-- sleepsOf distributes over trace concatenation. -/
theorem sleepsOf_append (a b : List Event) :
    sleepsOf (a ++ b) = sleepsOf a ++ sleepsOf b := by
  simp [sleepsOf]

/-- movesOf distributes over trace concatenation. -/
theorem movesOf_append (a b : List Event) :
    movesOf (a ++ b) = movesOf a ++ movesOf b := by
  simp [movesOf]

/-- rmtreeArgsOf distributes over trace concatenation. -/
theorem rmtreeArgsOf_append (a b : List Event) :
    rmtreeArgsOf (a ++ b) = rmtreeArgsOf a ++ rmtreeArgsOf b := by
  simp [rmtreeArgsOf]

/-- Appending the nonempty suffix "/.git" changes a string. -/
theorem append_git_ne_self (s : String) : s ++ "/.git" ≠ s := by
  intro h
  have hl := congrArg String.length h
  rw [String.length_append] at hl
  have h5 : ("/.git" : String).length = 5 := rfl
  omega

/-- String concatenation cancels on the right. -/
theorem string_append_right_cancel (a b t : String) (h : a ++ t = b ++ t) : a = b := by
  have hd := congrArg String.data h
  simp only [String.data_append] at hd
  exact String.ext (List.append_cancel_right hd)

/-- An attempt over entries whose only obstacle is the read-only attribute (chmod
works, nothing is blocked once writable) completes without raising. -/
theorem rmtreeAttempt_ok (entries : List FsEntry)
    (hok : ∀ e ∈ entries, e.chmodRaises = false ∧ e.blockedWhenWritable = false) :
    rmtreeAttempt entries = true := by
  induction entries with
  | nil => rfl
  | cons e rest ih =>
    obtain ⟨hch, hbw⟩ := hok e (by simp)
    have hhook : on_rm_error e = HookResult.removed := by
      simp [on_rm_error, hch, hbw]
    rw [rmtreeAttempt]
    by_cases hd : directRemoveFails e = true
    · rw [if_pos hd, hhook]
      exact ih (fun x hx => hok x (List.mem_cons_of_mem e hx))
    · rw [if_neg hd]
      exact ih (fun x hx => hok x (List.mem_cons_of_mem e hx))

/-- Claim C5: with retries=3 and delay=1/10 on an existing directory whose first two
whole-tree removal attempts raise and whose third completes leaving the target gone,
the call sleeps exactly twice, for 1/10 and then 2/10 time-units (the base delay
times the failed attempt number), then returns true, with no sleep after the
successful attempt. -/
theorem c5_backoff_two_sleeps (env : Env) (path : String) (ie : Bool)
    (hpe : env.pExists = true) (hcwd : env.cwdRaises = false)
    (hp1 : env.rmExistsPre 1 = true) (hp2 : env.rmExistsPre 2 = true)
    (hp3 : env.rmExistsPre 3 = true)
    (hr1 : env.rmRaises 1 = true) (hr2 : env.rmRaises 2 = true)
    (hr3 : env.rmRaises 3 = false) (hpost3 : env.rmExistsPost 3 = false) :
    (safe_remove_tree env path 3 (1/10) ie).1 = Except.ok true ∧
    sleepsOf (safe_remove_tree env path 3 (1/10) ie).2 = [(1 : ℚ)/10, (2 : ℚ)/10] := by
  have hlr : rmLoop env (delTarget env path) (1/10) 1 3 =
      (some true,
       [Event.rmtree (delTarget env path), Event.sleep ((1/10 : ℚ) * ((1 : Nat) : ℚ)),
        Event.rmtree (delTarget env path), Event.sleep ((1/10 : ℚ) * ((2 : Nat) : ℚ)),
        Event.rmtree (delTarget env path)]) := by
    simp [rmLoop, hp1, hp2, hp3, hr1, hr2, hr3, hpost3]
  constructor
  · have hlr1 : (rmLoop env (delTarget env path) (1/10) 1 3).1 = some true := by
      rw [hlr]
    rw [safe_remove_tree_run env path 3 (1/10) ie hpe hcwd, hlr1]
  · obtain ⟨tail, htr, htail⟩ := safe_remove_tree_trace env path 3 (1/10) ie hpe hcwd
    have hlr2 : (rmLoop env (delTarget env path) (1/10) 1 3).2 =
        [Event.rmtree (delTarget env path), Event.sleep ((1/10 : ℚ) * ((1 : Nat) : ℚ)),
         Event.rmtree (delTarget env path), Event.sleep ((1/10 : ℚ) * ((2 : Nat) : ℚ)),
         Event.rmtree (delTarget env path)] := by
      rw [hlr]
    rw [htr, hlr2, sleepsOf_append, sleepsOf_append, sleepsOf_append, sleepsOf_append,
        sleepsOf_guard, sleepsOf_git, sleepsOf_reloc]
    have hst : sleepsOf tail = [] := by rcases htail with rfl | rfl <;> rfl
    rw [hst]
    simp only [sleepsOf, List.filterMap_cons, sleepAmount, List.filterMap_nil]
    norm_num

/-- Witness for C5: a concrete run with two raising attempts and a successful third
returns true after exactly the two backoff sleeps 1/10 and 2/10. -/
theorem c5_witness :
    (safe_remove_tree envW5 "D" 3 (1/10) true).1 = Except.ok true ∧
    sleepsOf (safe_remove_tree envW5 "D" 3 (1/10) true).2 = [(1 : ℚ)/10, (2 : ℚ)/10] :=
  c5_backoff_two_sleeps envW5 "D" true rfl rfl rfl rfl rfl rfl rfl rfl rfl

/-- Claim C6: relocation tries exactly the two strategies in order — the rename is
always attempted, the move exactly when the rename raised — the deletion phase
targets the trash path when either strategy succeeded and the original path when
both failed, and no relocation failure escapes safe_remove_tree: every raised error
is the final give-up RuntimeError under ignore_errors=false. -/
theorem c6_relocation (env : Env) (path : String) (retries : Nat) (delay : ℚ) (ie : Bool)
    (hpe : env.pExists = true) (hcwd : env.cwdRaises = false) :
    movesOf (safe_remove_tree env path retries delay ie).2 =
      (if env.renameRaises then
        [Event.rename path (trashPath env), Event.move path (trashPath env)]
       else [Event.rename path (trashPath env)]) ∧
    delTarget env path =
      (if env.renameRaises && env.moveRaises then path else trashPath env) ∧
    (∀ e, (safe_remove_tree env path retries delay ie).1 = Except.error e →
      ie = false ∧ e = PyErr.runtimeError ("Could not delete build path: " ++ path)) := by
  refine ⟨?_, ?_, ?_⟩
  · obtain ⟨tail, htr, htail⟩ := safe_remove_tree_trace env path retries delay ie hpe hcwd
    have hmt : movesOf tail = [] := by rcases htail with rfl | rfl <;> rfl
    rw [htr, movesOf_append, movesOf_append, movesOf_append, movesOf_append,
        movesOf_guard, movesOf_git, movesOf_reloc, movesOf_rmLoop, hmt, relocEvents]
    simp
  · cases hb : env.renameRaises <;> cases hb2 : env.moveRaises <;>
      simp [delTarget, relocMoved, trashPath, hb, hb2]
  · intro e he
    rw [safe_remove_tree_run env path retries delay ie hpe hcwd] at he
    rcases hlr : (rmLoop env (delTarget env path) delay 1 retries).1 with _ | b
    · rw [hlr] at he
      cases ie with
      | false =>
        refine ⟨rfl, ?_⟩
        by_cases hfb : (env.posix && env.fbExists) = true
        · by_cases hr : env.fbRaises = true
          · simp only [hfb, hr, if_true] at he
            simp [giveUpResult] at he
            exact he.symm
          · simp only [hfb, if_true] at he
            rw [if_neg hr] at he
            simp at he
        · rw [if_neg hfb] at he
          simp [giveUpResult] at he
          exact he.symm
      | true =>
        exfalso
        by_cases hfb : (env.posix && env.fbExists) = true
        · by_cases hr : env.fbRaises = true
          · simp only [hfb, hr, if_true] at he
            simp [giveUpResult] at he
          · simp only [hfb, if_true] at he
            rw [if_neg hr] at he
            simp at he
        · rw [if_neg hfb] at he
          simp [giveUpResult] at he
    · rw [hlr] at he
      simp at he

/-- Witness for C6: the relocation characterization instantiated at a concrete run
whose rename raises and whose move succeeds. -/
theorem c6_witness :
    movesOf (safe_remove_tree envW6 "build" 1 (1/2) true).2 =
      (if envW6.renameRaises then
        [Event.rename "build" (trashPath envW6), Event.move "build" (trashPath envW6)]
       else [Event.rename "build" (trashPath envW6)]) ∧
    delTarget envW6 "build" =
      (if envW6.renameRaises && envW6.moveRaises then "build" else trashPath envW6) ∧
    (∀ e, (safe_remove_tree envW6 "build" 1 (1/2) true).1 = Except.error e →
      true = false ∧ e = PyErr.runtimeError ("Could not delete build path: " ++ "build")) :=
  c6_relocation envW6 "build" 1 (1/2) true rfl rfl

/-- Claim C7 (amended): safe_remove_tree performs its version-control pre-clean once,
on the original path, before relocation; the deletion phase performs no pre-clean of
its own on the post-relocation target — after a successful rename no rmtree of the
`.git` directory under the trash path ever happens, while the pre-clean of the
original path's `.git` directory is present whenever that directory exists. -/
theorem c7_single_preclean (env : Env) (path : String) (retries : Nat) (delay : ℚ)
    (ie : Bool) (hpe : env.pExists = true) (hcwd : env.cwdRaises = false)
    (hren : env.renameRaises = false) (hne : trashPath env ≠ path) :
    (trashPath env ++ "/.git") ∉
      rmtreeArgsOf (safe_remove_tree env path retries delay ie).2 ∧
    (env.gitExists = true →
      (path ++ "/.git") ∈ rmtreeArgsOf (safe_remove_tree env path retries delay ie).2) := by
  obtain ⟨tail, htr, htail⟩ := safe_remove_tree_trace env path retries delay ie hpe hcwd
  have htarget : delTarget env path = trashPath env := by
    simp [delTarget, relocMoved, hren]
  have htl : rmtreeArgsOf tail = [] := by rcases htail with rfl | rfl <;> rfl
  constructor
  · intro hmem
    rw [htr, rmtreeArgsOf_append, rmtreeArgsOf_append, rmtreeArgsOf_append,
        rmtreeArgsOf_append, rmtreeArgsOf_guard, rmtreeArgsOf_git, rmtreeArgsOf_reloc,
        htl] at hmem
    simp only [List.append_nil, List.nil_append, List.mem_append] at hmem
    rcases hmem with hmem | hmem
    · by_cases hg : env.gitExists = true
      · rw [if_pos hg] at hmem
        simp only [List.mem_singleton] at hmem
        exact hne (string_append_right_cancel _ _ _ hmem)
      · rw [if_neg hg] at hmem
        simp at hmem
    · have := rmtreeArgsOf_rmLoop env (delTarget env path) delay 1 retries _ hmem
      rw [htarget] at this
      exact append_git_ne_self (trashPath env) this
  · intro hg
    rw [htr, rmtreeArgsOf_append, rmtreeArgsOf_append, rmtreeArgsOf_append,
        rmtreeArgsOf_append, rmtreeArgsOf_guard, rmtreeArgsOf_git, rmtreeArgsOf_reloc,
        htl, if_pos hg]
    simp

/-- Claim C7, counterexample: with a `.git` directory present and a successful
rename, the whole trace contains a single pre-clean rmtree — of the `.git` under the
original path, before the rename — and no rmtree of the `.git` directory under the
post-relocation deletion target, contrary to the claimed independent pre-clean
inside the deletion phase. -/
theorem c7_no_target_preclean_counterexample :
    relocMoved envC7 = true ∧ delTarget envC7 "build" = "/tmp/build-trash-0" ∧
    envC7.gitExists = true ∧
    (safe_remove_tree envC7 "build" 1 (1/2) true).2 =
      [Event.rmtree "build/.git", Event.rename "build" "/tmp/build-trash-0",
       Event.rmtree "/tmp/build-trash-0"] ∧
    "/tmp/build-trash-0/.git" ∉
      rmtreeArgsOf (safe_remove_tree envC7 "build" 1 (1/2) true).2 :=
  ⟨rfl, rfl, rfl, rfl, by decide⟩

/-- Witness for C7: the single-pre-clean characterization at the concrete run. -/
theorem c7_witness :
    (trashPath envC7 ++ "/.git") ∉
      rmtreeArgsOf (safe_remove_tree envC7 "build" 1 (1/2) true).2 ∧
    (envC7.gitExists = true →
      ("build" ++ "/.git") ∈ rmtreeArgsOf (safe_remove_tree envC7 "build" 1 (1/2) true).2) :=
  c7_single_preclean envC7 "build" 1 (1/2) true rfl rfl rfl (by decide)

/-- Claim C8: for an existing directory whose entries are obstructed only by the
read-only attribute (chmod works, nothing stays blocked once writable), the rmtree
attempt completes without raising — so, with the loop raise oracle bound to that
attempt outcome and the attempt leaving the target gone, safe_remove_tree returns
true without raising; and the repair hook, on any entry whose chmod works, re-raises
out of the attempt exactly when the single repaired retry of that entry also fails. -/
theorem c8_readonly_repair (entries : List FsEntry) (env : Env) (path : String)
    (retries : Nat) (delay : ℚ) (ie : Bool)
    (_hro : ∃ e ∈ entries, e.readOnly = true)
    (hok : ∀ e ∈ entries, e.chmodRaises = false ∧ e.blockedWhenWritable = false)
    (hpe : env.pExists = true) (hcwd : env.cwdRaises = false)
    (hret : 1 ≤ retries)
    (hbridge : env.rmRaises 1 = !rmtreeAttempt entries)
    (hpost : env.rmExistsPost 1 = false) :
    rmtreeAttempt entries = true ∧
    (safe_remove_tree env path retries delay ie).1 = Except.ok true ∧
    (∀ e : FsEntry, e.chmodRaises = false →
      (on_rm_error e = HookResult.raised ↔ e.blockedWhenWritable = true)) := by
  have hA : rmtreeAttempt entries = true := rmtreeAttempt_ok entries hok
  refine ⟨hA, ?_, ?_⟩
  · have hr1 : env.rmRaises 1 = false := by rw [hbridge, hA]; rfl
    obtain ⟨r, rfl⟩ : ∃ r, retries = r + 1 := ⟨retries - 1, by omega⟩
    have hlr := rmLoop_first_success env (delTarget env path) delay 1 r hr1 hpost
    rw [safe_remove_tree_run env path (r + 1) delay ie hpe hcwd, hlr]
  · intro e hch
    cases hb : e.blockedWhenWritable <;> simp [on_rm_error, hch, hb]

/-- Witness for C8: a single read-only entry is repaired and the whole call
succeeds. -/
theorem c8_witness :
    rmtreeAttempt entriesW8 = true ∧
    (safe_remove_tree envW8 "build" 1 (1/2) true).1 = Except.ok true ∧
    (∀ e : FsEntry, e.chmodRaises = false →
      (on_rm_error e = HookResult.raised ↔ e.blockedWhenWritable = true)) :=
  c8_readonly_repair entriesW8 envW8 "build" 1 (1/2) true
    ⟨⟨true, false, false⟩, by simp [entriesW8], rfl⟩
    (by
      intro x hx
      rw [entriesW8, List.mem_singleton] at hx
      subst hx
      exact ⟨rfl, rfl⟩)
    rfl rfl (by omega) rfl rfl

/-- Claim C9: cleanup_build_files on None performs no operation; on the example tree
it passes exactly "A" then "B" to deletion and nothing for the None entry; and on
every well-formed tree it recurses into every subLibs entry at every nesting depth,
collecting exactly the spec-side traversal of the tree. -/
theorem c9_cleanup_traversal :
    cleanup_build_files PyVal.pyNone = Except.ok [] ∧
    cleanup_build_files exampleTree = Except.ok [PyVal.pyStr "A", PyVal.pyStr "B"] ∧
    (∀ v, WFTree v → cleanup_build_files v = Except.ok (specDeletedPaths v)) := by
  refine ⟨by rw [cleanup_build_files], ?_, fun v hv => cleanup_wf v hv⟩
  simp [cleanup_build_files, cleanupSubLibs, cleanupTruthySubs, cleanupItems,
    dictGet, truthy, exampleTree, exampleSubs, exampleNodeX, exampleNodeY]

/-- Witness for C9: the refinement applied to the example tree, whose
well-formedness is established by hand. -/
theorem c9_witness :
    cleanup_build_files exampleTree = Except.ok (specDeletedPaths exampleTree) := by
  apply c9_cleanup_traversal.2.2
  refine WFTree.withSubs _ exampleSubs ?_ ?_
  · rfl
  intro pr hpr
  rw [exampleSubs, List.mem_cons, List.mem_singleton] at hpr
  rcases hpr with rfl | rfl
  · exact WFTree.noSubs _ rfl
  · exact WFTree.noSubs _ rfl

/-- Claim C10: every falsy buildDir (absent key, None, empty string) means no
deletion for the node and every falsy subLibs (absent key, None, empty dict) means
no recursion, with missing fields never raising.  For any node whatsoever, a falsy
subLibs yields no recursion and no exception — the node contributes exactly its own
buildDir deletion when that field is truthy and nothing otherwise — and for any node
with a falsy buildDir the node contributes exactly the recursion over its subLibs
children, with no deletion of its own. -/
theorem c10_falsy_fields :
    (truthy PyVal.pyNone = false ∧ truthy (PyVal.pyStr "") = false ∧
     truthy (PyVal.pyDict []) = false ∧ dictGet [] "buildDir" = PyVal.pyNone ∧
     dictGet [] "subLibs" = PyVal.pyNone) ∧
    (∀ es, truthy (dictGet es "subLibs") = false →
      cleanup_build_files (PyVal.pyDict es) =
        Except.ok
          (if truthy (dictGet es "buildDir") then [dictGet es "buildDir"] else [])) ∧
    (∀ es subs, truthy (dictGet es "buildDir") = false →
      dictGet es "subLibs" = PyVal.pyDict subs →
      cleanup_build_files (PyVal.pyDict es) = cleanupItems subs) := by
  refine ⟨⟨rfl, rfl, rfl, rfl, rfl⟩, ?_, ?_⟩
  · intro es h2
    rw [cleanup_build_files, cleanupSubLibs_falsy es h2]
    simp
  · intro es subs h1 h2
    rw [cleanup_build_files, cleanupSubLibs_dict es subs h2]
    cases hci : cleanupItems subs with
    | error e => simp [h1, hci]
    | ok l => simp [h1, hci]

/-- Witness for C10: a node with a truthy buildDir and an absent subLibs key is
cleaned up with exactly its own deletion and no recursion or exception, and a node
whose buildDir is the empty string and whose subLibs key is absent contributes
nothing at all. -/
theorem c10_witness :
    cleanup_build_files (PyVal.pyDict [("buildDir", PyVal.pyStr "A")]) =
      Except.ok
        (if truthy (dictGet [("buildDir", PyVal.pyStr "A")] "buildDir")
         then [dictGet [("buildDir", PyVal.pyStr "A")] "buildDir"] else []) ∧
    cleanup_build_files (PyVal.pyDict [("buildDir", PyVal.pyStr "")]) =
      Except.ok
        (if truthy (dictGet [("buildDir", PyVal.pyStr "")] "buildDir")
         then [dictGet [("buildDir", PyVal.pyStr "")] "buildDir"] else []) :=
  ⟨c10_falsy_fields.2.1 [("buildDir", PyVal.pyStr "A")] rfl,
   c10_falsy_fields.2.1 [("buildDir", PyVal.pyStr "")] rfl⟩
